import Mathlib

/-!
Shallow embedding of the sonix-api playlist controller and auth controller
(`src/unnamed/part_000`, `src/src/controllers/auth.ts`, models in
`src/src/models/`), together with theorems settling the spec claims about
candidate aggregation, attribute filtering, token refresh, draft publishing,
track deletion and logout.

Conventions of the embedding:
* JavaScript strings that are checked for truthiness are modelled either as
  `Option String` (absent field) or as `String` where `""` plays the role of
  the falsy value, matching the mongoose schema in which token fields are
  plain optional strings.
* Audio-attribute values (floats in the source) are modelled as `ℚ`.
* External HTTP calls are modelled as oracle functions supplied as explicit
  environment records; database writes are explicit state passing over
  association lists keyed by user id.
-/

namespace Sonix

/-- JavaScript `a || b` on an optional string: a present but empty string is
falsy and falls through to `b`. Used for `opts.accessToken || opts.appToken`. -/
def jsOrOpt (a b : Option String) : Option String :=
  match a with
  | some s => if s = "" then b else some s
  | none => b

/-- JavaScript `a || b` where `a` is a lookup result and `b` a string, as in
`genreMap[g.toLowerCase()] || g.toLowerCase()`. -/
def jsOrStr (a : Option String) (b : String) : String :=
  match a with
  | some s => if s = "" then b else s
  | none => b

/-- JavaScript truthiness of an optional string field. -/
def jsTruthy (a : Option String) : Bool :=
  match a with
  | some s => s ≠ ""
  | none => false

/-- JavaScript `s.toLowerCase()`: lowercase the string character by
character. -/
def jsToLower (s : String) : String :=
  ⟨s.data.map Char.toLower⟩

/-- A candidate track as returned by the Spotify search / top-items
endpoints: the fields of the raw track object that `generatePlaylist`
reads (`t.id`, `t.name`, `t.artists[*].name`, `t.uri`,
`t.album.images[0].url`, `t.preview_url`). -/
structure CTrack where
  id : String
  name : String
  artists : List String
  uri : String
  albumImages : List String
  preview_url : Option String
deriving DecidableEq, Repr

/-- A track as stored inside a draft, the shape produced by the
`finalTracks` projection in `generatePlaylist` (lines 225-232). -/
structure DraftTrack where
  id : String
  name : String
  artist : String
  uri : String
  image : Option String
  preview : Option String
deriving DecidableEq, Repr

/-- The `finalTracks` projection of `generatePlaylist`: joined artist names,
first album image or null, preview url or null. -/
def projectTrack (t : CTrack) : DraftTrack :=
  { id := t.id
    name := t.name
    artist := String.intercalate ", " t.artists
    uri := t.uri
    image := t.albumImages.head?
    preview := t.preview_url }

/-- A draft playlist as stored in `user.spotify.playlists` (the object built
at lines 234-242 of the controller; `createdAt` is modelled as the `Nat`
timestamp `Date.now()` that also feeds the draft id). -/
structure Draft where
  id : String
  mood : String
  genres : List String
  count : Nat
  tracks : List DraftTrack
  status : String
  createdAt : Nat
deriving DecidableEq, Repr

/-- The `user.spotify` subdocument: the provider Credential pair plus the
embedded draft list. -/
structure SpotifyInfo where
  accessToken : String
  refreshToken : String
  playlists : List Draft
deriving DecidableEq, Repr

/-- The user record fields relevant to the claims: the app-level JWT pair
`accessToken`/`refreshToken` and the `spotify` subdocument (see
`src/src/models/User.ts`). -/
structure UserRec where
  name : String
  email : String
  accessToken : String
  refreshToken : String
  spotify : SpotifyInfo
deriving DecidableEq, Repr

/-! ## Genre normalization (generatePlaylist lines 112-124) -/

/-- The fixed genre lookup table `genreMap` of `generatePlaylist`. -/
def genreMap : List (String × String) :=
  [("rnb", "r-n-b"), ("hiphop", "hip-hop"), ("edm", "edm"), ("pop", "pop"),
   ("soul", "soul"), ("rock", "rock"), ("jazz", "jazz"),
   ("classical", "classical"), ("afrobeat", "afrobeat")]

/-- Lookup in the genre table, `genreMap[k]` returning `undefined` as `none`. -/
def genreLookup (k : String) : Option String :=
  (genreMap.find? (fun p => p.1 = k)).map (fun p => p.2)

/-- One genre tag normalized: `genreMap[g.toLowerCase()] || g.toLowerCase()`. -/
def normalizeGenre (g : String) : String :=
  jsOrStr (genreLookup (jsToLower g)) (jsToLower g)

/-- The seed genres: `genres.map(...).slice(0, 2)`. -/
def seedGenres (genres : List String) : List String :=
  (genres.map normalizeGenre).take 2

/-! ## Mood constraints and the attribute filter (lines 126-220) -/

/-- A constraint set: attribute name paired with its `[min, max]` range,
the shape of one `moodMap` entry. -/
abbrev ConstraintSet := List (String × ℚ × ℚ)

/-- The fixed `moodMap` of `generatePlaylist`. -/
def moodMap : List (String × ConstraintSet) :=
  [("chill", [("energy", mkRat 0 1, mkRat 1 2), ("danceability", mkRat 2 5, mkRat 3 5),
              ("valence", mkRat 2 5, mkRat 3 5)]),
   ("sad", [("energy", mkRat 0 1, mkRat 3 10), ("valence", mkRat 0 1, mkRat 2 5)]),
   ("party", [("energy", mkRat 7 10, mkRat 1 1), ("danceability", mkRat 7 10, mkRat 1 1),
              ("valence", mkRat 3 5, mkRat 1 1)]),
   ("focus", [("energy", mkRat 3 10, mkRat 3 5), ("instrumentalness", mkRat 1 2, mkRat 1 1)]),
   ("hype", [("energy", mkRat 4 5, mkRat 1 1), ("valence", mkRat 7 10, mkRat 1 1)])]

/-- The mood-derived constraint set: `moodMap[mood.toLowerCase()] || {}`. -/
def moodTarget (mood : String) : ConstraintSet :=
  ((moodMap.find? (fun p => p.1 = jsToLower mood)).map (fun p => p.2)).getD []

/-- An audio-features object, keeping the numeric attributes the filter can
read (`typeof f[attr] === "number"` is modelled by presence in the list). -/
abbrev FeatObj := List (String × ℚ)

/-- The `featuresMap` built from the audio-features response: track id to
its features object. -/
abbrev FeaturesMap := List (String × FeatObj)

/-- `featuresMap[t.id]`, `undefined` as `none`. -/
def featLookup (fm : FeaturesMap) (tid : String) : Option FeatObj :=
  (fm.find? (fun p => p.1 = tid)).map (fun p => p.2)

/-- `f[attr]` when it is a number, else `none`. -/
def attrLookup (f : FeatObj) (a : String) : Option ℚ :=
  (f.find? (fun p => p.1 = a)).map (fun p => p.2)

/-- The filter predicate of `generatePlaylist` (lines 213-220):
`const f = featuresMap[t.id]; if (!f || Object.keys(target).length === 0)
return true; return Object.keys(target).every(attr => typeof f[attr] ===
"number" && f[attr] >= min && f[attr] <= max)`. -/
def trackPasses (fm : FeaturesMap) (target : ConstraintSet) (t : CTrack) : Bool :=
  match featLookup fm t.id with
  | none => true
  | some f =>
    if target.isEmpty then true
    else target.all (fun c =>
      match attrLookup f c.1 with
      | some v => decide (c.2.1 ≤ v) && decide (v ≤ c.2.2)
      | none => false)

/-- The `filtered` list of `generatePlaylist` (line 213). -/
def filteredTracks (fm : FeaturesMap) (target : ConstraintSet)
    (candidateTracks : List CTrack) : List CTrack :=
  candidateTracks.filter (trackPasses fm target)

/-- The `pool` of `generatePlaylist` (line 222):
`filtered.length ? filtered : candidateTracks`. -/
def selectionPool (fm : FeaturesMap) (target : ConstraintSet)
    (candidateTracks : List CTrack) : List CTrack :=
  let filtered := filteredTracks fm target candidateTracks
  if filtered.isEmpty then candidateTracks else filtered

/-! ## Deduplication (lines 188-191) -/

/-- The dedupe loop state: ids already inserted into the `byId` map. A track
is kept iff `t?.id` is truthy (nonempty here; a null entry is modelled as an
empty id) and the id is not in the map yet, so the first occurrence wins and
insertion order is preserved. -/
def dedupeGo (seen : List String) : List CTrack → List CTrack
  | [] => []
  | t :: ts =>
    if t.id ≠ "" ∧ t.id ∉ seen then t :: dedupeGo (t.id :: seen) ts
    else dedupeGo seen ts

/-- The dedupe step of `generatePlaylist`: build `byId` in iteration order,
then `Array.from(byId.values())`. -/
def dedupeById (candidateTracks : List CTrack) : List CTrack :=
  dedupeGo [] candidateTracks

/-! ## spotifyRequest (lines 30-74): the refresh-and-retry wrapper -/

/-- Outcome of one upstream HTTP attempt: a response body (abstracted to a
`Nat` payload) or a thrown error carrying `err.response.status`. -/
inductive CallResult where
  | success (body : Nat)
  | failure (status : Nat)
deriving DecidableEq, Repr

/-- Outcome of the token-refresh exchange (the `axios.post` to the accounts
token endpoint inside the 401 handler): the exchange may throw, or return a
body whose `access_token` field may be absent. -/
inductive RefreshResult where
  | success (newAccessToken : Option String)
  | failure
deriving DecidableEq, Repr

/-- The `opts` argument of `spotifyRequest`. -/
structure ReqOpts where
  accessToken : Option String
  appToken : Option String
  refreshToken : Option String
  userId : Option String
deriving DecidableEq, Repr

/-- Upstream environment for one `spotifyRequest` invocation: the result of
the wrapped endpoint as a function of the attempt index (0 = first try,
1 = retry) and the bearer token attached, plus the outcome the token
endpoint would produce for the refresh exchange. -/
structure UpstreamEnv where
  call : Nat → Option String → CallResult
  refreshOutcome : RefreshResult

/-- Errors `spotifyRequest` can propagate to its caller. -/
inductive ReqError where
  | upstream (status : Nat)
  | refreshFailed
  | noNewToken
  | retryFailed (status : Nat)
deriving DecidableEq, Repr

/-- Result of `spotifyRequest` as seen by a caller. -/
inductive ReqResult where
  | ok (body : Nat)
  | error (e : ReqError)
deriving DecidableEq, Repr

/-- The credential store slice touched by the refresh path: user id mapped
to `spotify.accessToken`. -/
abbrev TokenDb := List (String × String)

/-- `User.findByIdAndUpdate(userId, { "spotify.accessToken": tok })`. -/
def setAccessToken (db : TokenDb) (uid tok : String) : TokenDb :=
  db.map (fun p => if p.1 = uid then (p.1, tok) else p)

/-- Read a stored access token from the credential store slice. -/
def lookupDb (db : TokenDb) (uid : String) : Option String :=
  (db.find? (fun p => p.1 = uid)).map (fun p => p.2)

/-- Everything observable about one `spotifyRequest` run: the value returned
or thrown, the credential store afterwards, how many refresh exchanges were
performed, and the bearer token of each attempt of the wrapped endpoint in
order. -/
structure ReqOutcome where
  result : ReqResult
  db : TokenDb
  refreshExchanges : Nat
  attempts : List (Option String)
deriving DecidableEq, Repr

/-- Shallow embedding of `spotifyRequest` (lines 30-74). The first attempt
uses `opts.accessToken || opts.appToken`; on a 401 with truthy
`opts.refreshToken` and `opts.userId` it performs one refresh exchange,
persists the new token, and retries once with it; every other error (and
any error of the refresh or of the retry) is rethrown. -/
def spotifyRequest (env : UpstreamEnv) (opts : ReqOpts) (db : TokenDb) : ReqOutcome :=
  let token := jsOrOpt opts.accessToken opts.appToken
  match env.call 0 token with
  | .success body => ⟨.ok body, db, 0, [token]⟩
  | .failure status =>
    if status = 401 ∧ jsTruthy opts.refreshToken ∧ jsTruthy opts.userId then
      match env.refreshOutcome with
      | .failure => ⟨.error .refreshFailed, db, 1, [token]⟩
      | .success none => ⟨.error .noNewToken, db, 1, [token]⟩
      | .success (some newAccessToken) =>
        if newAccessToken = "" then ⟨.error .noNewToken, db, 1, [token]⟩
        else
          let db1 := setAccessToken db (opts.userId.getD "") newAccessToken
          match env.call 1 (some newAccessToken) with
          | .success body => ⟨.ok body, db1, 1, [token, some newAccessToken]⟩
          | .failure s => ⟨.error (.retryFailed s), db1, 1, [token, some newAccessToken]⟩
    else ⟨.error (.upstream status), db, 0, [token]⟩

/-! ## pushDraftToSpotify (lines 284-340) -/

/-- A published playlist record (`src/src/models/Playlist.ts`), created by
`pushDraftToSpotify` step 4. -/
structure PublishedRec where
  user : String
  spotifyPlaylistId : String
  name : String
  mood : String
  genres : List String
  tracks : List DraftTrack
deriving DecidableEq, Repr

/-- The persisted state `pushDraftToSpotify` reads and writes: the owning
user record and the published-playlist collection. -/
structure PushState where
  user : UserRec
  published : List PublishedRec
deriving DecidableEq, Repr

/-- Environment for one `pushDraftToSpotify` run: the outcome of the
playlist-create call (error status or playlist id and name), whether the
i-th add-tracks batch call succeeds, and whether the two persistence writes
succeed. -/
structure PushEnv where
  createResult : Except Nat (String × String)
  addTracksOk : Nat → Bool
  savePlaylistDocOk : Bool
  saveUserOk : Bool

/-- Errors `pushDraftToSpotify` maps to HTTP responses. -/
inductive PushError where
  | notConnected
  | draftNotFound
  | createFailed (status : Nat)
  | addTracksFailed (status : Nat)
  | savePlaylistDocFailed
  | saveUserFailed
deriving DecidableEq, Repr

/-- Result of `pushDraftToSpotify`. -/
inductive PushResult where
  | ok (record : PublishedRec)
  | error (e : PushError)
deriving DecidableEq, Repr

/-- `findIndex` on the draft list followed by index access and `splice`,
packaged as a split: the drafts before the first match, the matching draft,
and the drafts after it. -/
def findFirstDraft (did : String) : List Draft → Option (List Draft × Draft × List Draft)
  | [] => none
  | d :: ds =>
    if d.id = did then some ([], d, ds)
    else (findFirstDraft did ds).map (fun x => (d :: x.1, x.2.1, x.2.2))

/-- Structural worker for the batching loop: the fuel bounds the number of
iterations (each iteration consumes at least one uri, so the uri count is
enough fuel). -/
def chunk100Go : Nat → List String → List (List String)
  | _, [] => []
  | 0, _ :: _ => []
  | fuel + 1, x :: xs => ((x :: xs).take 100) :: chunk100Go fuel ((x :: xs).drop 100)

/-- The batching loop `for (let i = 0; i < uris.length; i += 100)` of
`pushDraftToSpotify` (lines 312-319): the successive `uris.slice(i, i+100)`
payloads. -/
def chunk100 (l : List String) : List (List String) :=
  chunk100Go l.length l

/-- Issue the batch calls sequentially starting at batch index `i`: returns
the payloads actually sent (the failing one included, since its call was
issued) and the index of the first failing batch, if any; on a failure the
loop is aborted by the thrown error. -/
def runBatches (ok : Nat → Bool) (i : Nat) : List (List String) → List (List String) × Option Nat
  | [] => ([], none)
  | b :: bs =>
    if ok i then
      let rest := runBatches ok (i + 1) bs
      (b :: rest.1, rest.2)
    else ([b], some i)

/-- Shallow embedding of `pushDraftToSpotify` (lines 284-340). Returns the
state after the run, the response, and the trace of add-tracks payloads
issued. Credential truthiness uses the `""`-is-absent convention of the
mongoose string fields. -/
def pushDraftToSpotify (env : PushEnv) (st : PushState) (userId draftId : String) :
    PushState × PushResult × List (List String) :=
  if st.user.spotify.accessToken = "" then (st, .error .notConnected, [])
  else
    match findFirstDraft draftId st.user.spotify.playlists with
    | none => (st, .error .draftNotFound, [])
    | some (pre, draft, post) =>
      match env.createResult with
      | .error s => (st, .error (.createFailed s), [])
      | .ok (spotifyPlaylistId, createdName) =>
        let uris := draft.tracks.map (fun t => t.uri)
        let batches := chunk100 uris
        let issued := runBatches env.addTracksOk 0 batches
        match issued.2 with
        | some i => (st, .error (.addTracksFailed i), issued.1)
        | none =>
          let record : PublishedRec :=
            { user := userId, spotifyPlaylistId := spotifyPlaylistId,
              name := createdName, mood := draft.mood, genres := draft.genres,
              tracks := draft.tracks }
          if env.savePlaylistDocOk then
            let st1 : PushState := { st with published := st.published ++ [record] }
            if env.saveUserOk then
              ({ st1 with
                  user := { st1.user with
                    spotify := { st1.user.spotify with playlists := pre ++ post } } },
               .ok record, issued.1)
            else (st1, .error .saveUserFailed, issued.1)
          else (st, .error .savePlaylistDocFailed, issued.1)

/-! ## Draft assembly and persistence (generatePlaylist lines 222-251) -/

/-- The destructuring default `const { count = 20 } = req.body`. -/
def requestedCount (count : Option Nat) : Nat :=
  count.getD 20

/-- The user store slice read and written by `generatePlaylist`. -/
abbrev UserDb := List (String × UserRec)

/-- The tail of `generatePlaylist` after the pool is fixed: take the first
`count` entries of the shuffled pool (`pool.sort(() => Math.random() - 0.5)`
produces some permutation of the pool, passed here as `shuffled`), project
them, build the draft object, and append it to the caller's draft list when
a user record was resolved. Returns the draft of the response and the user
store afterwards. -/
def assembleAndPersist (db : UserDb) (userId : Option String) (mood : String)
    (seedGs : List String) (count : Nat) (shuffled : List CTrack) (now : Nat) :
    Draft × UserDb :=
  let selected := shuffled.take count
  let finalTracks := selected.map projectTrack
  let draft : Draft :=
    { id := "draft_" ++ toString now, mood := mood, genres := seedGs,
      count := count, tracks := finalTracks, status := "draft", createdAt := now }
  match userId with
  | none => (draft, db)
  | some uid =>
    (draft,
     db.map (fun p =>
       if p.1 = uid then
         (p.1, { p.2 with
           spotify := { p.2.spotify with playlists := p.2.spotify.playlists ++ [draft] } })
       else p))

/-! ## deleteTrackFromDraft (lines 261-279) -/

/-- Responses of `deleteTrackFromDraft`: 401 when no `userId` is attached,
404 when the user or the draft cannot be found, 200 with the updated draft
otherwise. -/
inductive DelResult where
  | notAuthenticated
  | notFound
  | ok (draft : Draft)
deriving DecidableEq, Repr

/-- Shallow embedding of `deleteTrackFromDraft`: locate the first draft with
the given id in the caller's draft list, remove every track whose id equals
`trackId`, and save the user. The in-place mutation of the found draft is
modelled by rebuilding the list around the updated draft. -/
def deleteTrackFromDraft (db : UserDb) (userId : Option String)
    (draftId trackId : String) : DelResult × UserDb :=
  match userId with
  | none => (.notAuthenticated, db)
  | some uid =>
    match (db.find? (fun p => p.1 = uid)).map (fun p => p.2) with
    | none => (.notFound, db)
    | some u =>
      match findFirstDraft draftId u.spotify.playlists with
      | none => (.notFound, db)
      | some (pre, d, post) =>
        let d1 : Draft := { d with tracks := d.tracks.filter (fun t => t.id ≠ trackId) }
        let u1 : UserRec :=
          { u with spotify := { u.spotify with playlists := pre ++ d1 :: post } }
        (.ok d1, db.map (fun p => if p.1 = uid then (p.1, u1) else p))

/-! ## logout (src/src/controllers/auth.ts lines 186-218) -/

/-- The observable response of a successful `logout`: HTTP status and
whether the session cookie was cleared. -/
structure LogoutOutcome where
  status : Nat
  cookieCleared : Bool
deriving DecidableEq, Repr

/-- Shallow embedding of the found-user path of `logout`: sets
`user.accessToken = ""` and `user.refreshToken = ""` (the app-level JWT
pair), saves the user, clears the `token` cookie and responds 200. -/
def logout (u : UserRec) : LogoutOutcome × UserRec :=
  (⟨200, true⟩, { u with accessToken := "", refreshToken := "" })

/-! ## Concrete fixtures used by counterexamples and witnesses -/

/-- A user whose Spotify Credential pair is present and nonempty. -/
def userEx : UserRec :=
  { name := "n", email := "e", accessToken := "appA", refreshToken := "appR",
    spotify := { accessToken := "SA", refreshToken := "SR", playlists := [] } }

/-- A concrete candidate track. -/
def cTrackEx : CTrack :=
  { id := "t1", name := "Song", artists := ["A"], uri := "spotify:track:t1",
    albumImages := [], preview_url := none }

/-- A features map that gives `cTrackEx` an energy of 0.9. -/
def fmHighEnergy : FeaturesMap := [("t1", [("energy", mkRat 9 10)])]

/-! ## Theorems -/

/-- Claim C6 (amended): a successful logout clears the user's app-level
session token pair (`user.accessToken`, `user.refreshToken`) and the session
cookie and responds 200, but leaves the stored Spotify Credential
(`user.spotify`) unchanged, i.e. retained rather than cleared. -/
theorem logout_clears_app_tokens (u : UserRec) :
    (logout u).1.status = 200 ∧ (logout u).1.cookieCleared = true ∧
    (logout u).2.accessToken = "" ∧ (logout u).2.refreshToken = "" ∧
    (logout u).2.spotify = u.spotify ∧
    (logout u).2.name = u.name ∧ (logout u).2.email = u.email := by
  simp [logout]

/-- Claim C6 counterexample: for the concrete user `userEx`, whose stored
Credential pair is ("SA", "SR"), logout does not clear the Credential — both
`spotify.accessToken` and `spotify.refreshToken` are retained, refuting the
claim that a successful logout clears the stored Credential. -/
theorem logout_retains_credential :
    ¬ ((logout userEx).2.spotify.accessToken = "" ∧
       (logout userEx).2.spotify.refreshToken = "") := by
  decide

/-- Every code in the genre lookup table is nonempty, so the JavaScript `||`
fallback never fires on a successful lookup. -/
lemma genreLookup_ne_empty {k c : String} (h : genreLookup k = some c) : c ≠ "" := by
  unfold genreLookup at h
  cases hf : genreMap.find? (fun p => p.1 = k) with
  | none => rw [hf] at h; simp at h
  | some p =>
    rw [hf] at h
    simp only [Option.map_some'] at h
    have hp : p ∈ genreMap := List.mem_of_find?_eq_some hf
    injection h with h
    subst h
    simp only [genreMap, List.mem_cons, List.not_mem_nil, or_false] at hp
    rcases hp with h1 | h1 | h1 | h1 | h1 | h1 | h1 | h1 | h1 <;> subst h1 <;> decide

/-- Claim C7: `generatePlaylist` maps each genre tag through the fixed
lookup table (known tags become their provider codes, unknown tags pass
through lowercased) and keeps at most the first two normalized genres, so
the seed-genre list length never exceeds 2. -/
theorem seedGenres_spec (genres : List String) :
    (seedGenres genres).length ≤ 2 ∧
    seedGenres genres = (genres.map normalizeGenre).take 2 ∧
    (∀ g c, genreLookup (jsToLower g) = some c → normalizeGenre g = c) ∧
    (∀ g, genreLookup (jsToLower g) = none → normalizeGenre g = jsToLower g) ∧
    normalizeGenre "RnB" = "r-n-b" ∧ normalizeGenre "HipHop" = "hip-hop" ∧
    normalizeGenre "EDM" = "edm" ∧ normalizeGenre "Pop" = "pop" ∧
    normalizeGenre "soul" = "soul" ∧ normalizeGenre "Rock" = "rock" ∧
    normalizeGenre "jazz" = "jazz" ∧ normalizeGenre "Classical" = "classical" ∧
    normalizeGenre "afrobeat" = "afrobeat" := by
  refine ⟨?_, rfl, ?_, ?_, ?_, ?_, ?_, ?_, ?_, ?_, ?_, ?_, ?_⟩
  · simp only [seedGenres, List.length_take]
    omega
  · intro g c hc
    have hne := genreLookup_ne_empty hc
    simp [normalizeGenre, jsOrStr, hc, hne]
  · intro g hg
    simp [normalizeGenre, jsOrStr, hg]
  all_goals decide

/-- Claim C7 witness: three input tags produce at most two seed genres, and
the unknown tag "Grime" passes through lowercased. -/
theorem seedGenres_spec_witness :
    (seedGenres ["RnB", "pop", "jazz"]).length ≤ 2 ∧ normalizeGenre "Grime" = "grime" :=
  ⟨(seedGenres_spec ["RnB", "pop", "jazz"]).1,
   (seedGenres_spec []).2.2.2.1 "Grime" (by decide)⟩

/-- Claim C5: if the attribute filter removes every track of a non-empty
candidate pool, the selection pool used by the draft assembler is the
original unfiltered pool, and the selection pool of a non-empty candidate
pool is never empty. -/
theorem selectionPool_fallback (fm : FeaturesMap) (target : ConstraintSet)
    (candidateTracks : List CTrack) (hne : candidateTracks ≠ []) :
    (filteredTracks fm target candidateTracks = [] →
      selectionPool fm target candidateTracks = candidateTracks) ∧
    selectionPool fm target candidateTracks ≠ [] := by
  constructor
  · intro h
    simp [selectionPool, h]
  · unfold selectionPool
    by_cases h : (filteredTracks fm target candidateTracks).isEmpty
    · simp only [h, if_true]
      exact hne
    · simp only [h, if_false]
      simpa [List.isEmpty_iff] using h

/-- Claim C5 witness: a one-track pool whose only track fails the "chill"
constraints (energy 0.9) filters to the empty list, and the selection pool
falls back to the original pool. -/
theorem selectionPool_fallback_witness :
    selectionPool fmHighEnergy (moodTarget "chill") [cTrackEx] = [cTrackEx] ∧
    selectionPool fmHighEnergy (moodTarget "chill") [cTrackEx] ≠ [] := by
  have h := selectionPool_fallback fmHighEnergy (moodTarget "chill") [cTrackEx]
    (by decide)
  exact ⟨h.1 (by decide), h.2⟩

/-- Claim C1 (amended): a track whose attribute data was fetched passes the
filter iff every configured constraint is met by a numeric attribute value
within its inclusive [min, max] range, when the constraint set is non-empty;
every track passes when the constraint set is empty; and a track whose
attribute data is missing from the fetched attribute map always passes,
regardless of the constraints. -/
theorem trackPasses_spec (fm : FeaturesMap) (target : ConstraintSet) (t : CTrack) :
    (featLookup fm t.id = none → trackPasses fm target t = true) ∧
    (target = [] → trackPasses fm target t = true) ∧
    (∀ f, featLookup fm t.id = some f → target ≠ [] →
      (trackPasses fm target t = true ↔
        ∀ c ∈ target, ∃ v, attrLookup f c.1 = some v ∧ c.2.1 ≤ v ∧ v ≤ c.2.2)) := by
  refine ⟨?_, ?_, ?_⟩
  · intro h
    unfold trackPasses
    rw [h]
  · intro h
    unfold trackPasses
    cases hf : featLookup fm t.id <;> simp [h]
  · intro f hf hne
    unfold trackPasses
    rw [hf]
    have hie : ¬ (target.isEmpty = true) := by
      simpa [List.isEmpty_iff] using hne
    dsimp only
    rw [if_neg hie, List.all_eq_true]
    constructor
    · intro h c hc
      have hc1 := h c hc
      cases ha : attrLookup f c.1 with
      | none => rw [ha] at hc1; simp at hc1
      | some v =>
        rw [ha] at hc1
        simp only [Bool.and_eq_true, decide_eq_true_eq] at hc1
        exact ⟨v, rfl, hc1.1, hc1.2⟩
    · intro h c hc
      obtain ⟨v, hv, h1, h2⟩ := h c hc
      rw [hv]
      simp [h1, h2]

/-- Claim C1 witness: under the non-empty "chill" constraint set, a track
whose fetched energy is 0.9 fails the filter (0.9 is outside [0, 0.5]),
matching the spec's worked example. -/
theorem trackPasses_spec_witness :
    trackPasses fmHighEnergy (moodTarget "chill") cTrackEx = false := by
  have h := (trackPasses_spec fmHighEnergy (moodTarget "chill") cTrackEx).2.2
    [("energy", mkRat 9 10)] (by decide) (by decide)
  cases hb : trackPasses fmHighEnergy (moodTarget "chill") cTrackEx with
  | false => rfl
  | true =>
    exfalso
    have h2 := h.1 hb ("danceability", mkRat 2 5, mkRat 3 5) (by decide)
    obtain ⟨v, hv, _, _⟩ := h2
    simp [attrLookup] at hv

/-- Claim C1 counterexample: with the non-empty "chill" constraint set and
an empty fetched attribute map, `cTrackEx` has no attribute data yet passes
the filter, refuting the claim that a missing-data track fails evaluation
whenever at least one constraint is configured. -/
theorem trackPasses_missing_data_passes :
    featLookup ([] : FeaturesMap) cTrackEx.id = none ∧
    moodTarget "chill" ≠ [] ∧
    trackPasses ([] : FeaturesMap) (moodTarget "chill") cTrackEx = true := by
  decide

/-- Updating the stored access token for `uid` makes subsequent lookups of
`uid` return the new token, provided `uid` has a stored entry. -/
lemma lookupDb_setAccessToken (db : TokenDb) (uid tok : String)
    (h : (lookupDb db uid).isSome) :
    lookupDb (setAccessToken db uid tok) uid = some tok := by
  induction db with
  | nil => simp [lookupDb] at h
  | cons p ps ih =>
    by_cases hp : p.1 = uid
    · simp [lookupDb, setAccessToken, List.find?, hp]
    · simp only [lookupDb, setAccessToken, List.map_cons, if_neg hp] at *
      rw [List.find?_cons_of_neg _ (by simp [hp])] at h ⊢
      exact ih h

/-- Claim C2: with a user refresh token and user id available, a 401 on the
first attempt triggers exactly one token-refresh exchange; on a successful
exchange the new access token is persisted keyed by the user id and the
call is retried exactly once with the new token, the retry's outcome
(success or failure) being final; a failed refresh exchange is terminal
with no retry; and any non-401 failure propagates immediately with no
refresh and no retry. -/
theorem spotifyRequest_refresh_contract (env : UpstreamEnv) (opts : ReqOpts)
    (db : TokenDb) (r uid : String)
    (hr : opts.refreshToken = some r) (hrne : r ≠ "")
    (hu : opts.userId = some uid) (hune : uid ≠ "") :
    (∀ s, s ≠ 401 → env.call 0 (jsOrOpt opts.accessToken opts.appToken) = .failure s →
      spotifyRequest env opts db =
        ⟨.error (.upstream s), db, 0, [jsOrOpt opts.accessToken opts.appToken]⟩) ∧
    (env.call 0 (jsOrOpt opts.accessToken opts.appToken) = .failure 401 →
      (env.refreshOutcome = .failure →
        spotifyRequest env opts db =
          ⟨.error .refreshFailed, db, 1, [jsOrOpt opts.accessToken opts.appToken]⟩) ∧
      (∀ newTok, newTok ≠ "" → env.refreshOutcome = .success (some newTok) →
        (spotifyRequest env opts db).refreshExchanges = 1 ∧
        (spotifyRequest env opts db).db = setAccessToken db uid newTok ∧
        ((lookupDb db uid).isSome →
          lookupDb (spotifyRequest env opts db).db uid = some newTok) ∧
        (spotifyRequest env opts db).attempts =
          [jsOrOpt opts.accessToken opts.appToken, some newTok] ∧
        (∀ b, env.call 1 (some newTok) = .success b →
          (spotifyRequest env opts db).result = .ok b) ∧
        (∀ s, env.call 1 (some newTok) = .failure s →
          (spotifyRequest env opts db).result = .error (.retryFailed s)))) := by
  have htr : jsTruthy opts.refreshToken = true := by simp [jsTruthy, hr, hrne]
  have htu : jsTruthy opts.userId = true := by simp [jsTruthy, hu, hune]
  constructor
  · intro s hs hcall
    simp only [spotifyRequest, hcall]
    rw [if_neg (fun hcon => hs hcon.1)]
  · intro hcall
    constructor
    · intro hro
      simp only [spotifyRequest, hcall]
      rw [if_pos (by simp [htr, htu]), hro]
    · intro newTok hnt hro
      have key : spotifyRequest env opts db =
          (match env.call 1 (some newTok) with
           | .success body =>
             ⟨.ok body, setAccessToken db uid newTok, 1,
              [jsOrOpt opts.accessToken opts.appToken, some newTok]⟩
           | .failure s =>
             ⟨.error (.retryFailed s), setAccessToken db uid newTok, 1,
              [jsOrOpt opts.accessToken opts.appToken, some newTok]⟩) := by
        simp only [spotifyRequest, hcall]
        rw [if_pos (by simp [htr, htu]), hro]
        dsimp only
        rw [if_neg hnt, hu]
        simp only [Option.getD_some]
      rw [key]
      cases hretry : env.call 1 (some newTok) with
      | success body =>
        refine ⟨rfl, rfl, ?_, rfl, ?_, ?_⟩
        · intro h
          exact lookupDb_setAccessToken db uid newTok h
        · intro b hb
          injection hb with hb
          rw [hb]
        · intro s hs
          exact CallResult.noConfusion hs
      | failure s0 =>
        refine ⟨rfl, rfl, ?_, rfl, ?_, ?_⟩
        · intro h
          exact lookupDb_setAccessToken db uid newTok h
        · intro b hb
          exact CallResult.noConfusion hb
        · intro s hs
          injection hs with hs
          rw [hs]

/-- Upstream environment of the C2 witness: the wrapped endpoint fails with
401 on the first attempt and succeeds with body 7 on the retry; the refresh
exchange hands out the token "T2". -/
def envC2 : UpstreamEnv :=
  { call := fun i _ => if i = 0 then .failure 401 else .success 7
    refreshOutcome := .success (some "T2") }

/-- Options of the C2 witness: a user call with an expired access token. -/
def optsC2 : ReqOpts :=
  { accessToken := some "A", appToken := none, refreshToken := some "R",
    userId := some "u1" }

/-- Credential store of the C2 witness. -/
def dbC2 : TokenDb := [("u1", "OLD")]

/-- Claim C2 witness: in the concrete 401-then-success environment the call
succeeds with the retried body, the stored access token is updated to the
refreshed one, exactly one refresh exchange happens, and exactly the two
attempts (old token, new token) are issued. -/
theorem spotifyRequest_refresh_contract_witness :
    (spotifyRequest envC2 optsC2 dbC2).result = .ok 7 ∧
    (spotifyRequest envC2 optsC2 dbC2).db = [("u1", "T2")] ∧
    (spotifyRequest envC2 optsC2 dbC2).refreshExchanges = 1 ∧
    (spotifyRequest envC2 optsC2 dbC2).attempts = [some "A", some "T2"] := by
  have h := spotifyRequest_refresh_contract envC2 optsC2 dbC2 "R" "u1"
    rfl (by decide) rfl (by decide)
  have h401 : envC2.call 0 (jsOrOpt optsC2.accessToken optsC2.appToken) =
      .failure 401 := by decide
  have h2 := (h.2 h401).2 "T2" (by decide) rfl
  refine ⟨h2.2.2.2.2.1 7 (by decide), ?_, h2.1, h2.2.2.2.1⟩
  rw [h2.2.1]
  decide

/-- The worker is independent of the fuel as long as the fuel is enough. -/
lemma chunk100Go_congr (fuel : Nat) :
    ∀ fuel' (l : List String), l.length ≤ fuel → l.length ≤ fuel' →
      chunk100Go fuel l = chunk100Go fuel' l := by
  induction fuel with
  | zero =>
    intro fuel' l hl _
    have : l = [] := List.eq_nil_of_length_eq_zero (Nat.le_zero.mp hl)
    subst this
    cases fuel' <;> rfl
  | succ n ih =>
    intro fuel' l hl hl'
    cases l with
    | nil => cases fuel' <;> rfl
    | cons x xs =>
      cases fuel' with
      | zero => simp at hl'
      | succ f' =>
        simp only [chunk100Go]
        congr 1
        apply ih
        · simp only [List.length_drop, List.length_cons]
          simp only [List.length_cons] at hl
          omega
        · simp only [List.length_drop, List.length_cons]
          simp only [List.length_cons] at hl'
          omega

/-- Unfolding equation of the batching loop. -/
lemma chunk100_eq (l : List String) :
    chunk100 l = if l = [] then [] else l.take 100 :: chunk100 (l.drop 100) := by
  cases l with
  | nil => rfl
  | cons x xs =>
    rw [if_neg (List.cons_ne_nil x xs)]
    show chunk100Go (x :: xs).length (x :: xs) = _
    simp only [List.length_cons, chunk100Go]
    congr 1
    apply chunk100Go_congr
    · simp only [List.length_drop, List.length_cons]
      omega
    · exact le_rfl

/-- The batches concatenate back to the original uri list: every uri is
covered, in order. -/
lemma chunk100_join (l : List String) : (chunk100 l).flatten = l := by
  rw [chunk100_eq]
  by_cases h : l = []
  · simp [h]
  · rw [if_neg h]
    simp only [List.flatten_cons]
    rw [chunk100_join (l.drop 100)]
    exact List.take_append_drop 100 l
termination_by l.length
decreasing_by
  simp only [List.length_drop]
  have : l.length ≠ 0 := fun hl => h (List.eq_nil_of_length_eq_zero hl)
  omega

/-- Every batch has between 1 and 100 uris. -/
lemma chunk100_mem (l : List String) (b : List String) (hb : b ∈ chunk100 l) :
    b.length ≤ 100 ∧ b ≠ [] := by
  rw [chunk100_eq] at hb
  by_cases h : l = []
  · rw [if_pos h] at hb
    simp at hb
  · rw [if_neg h] at hb
    rcases List.mem_cons.mp hb with hb1 | hb1
    · subst hb1
      constructor
      · simp [List.length_take]
      · simp only [ne_eq, List.take_eq_nil_iff]
        push_neg
        exact ⟨by omega, h⟩
    · exact chunk100_mem (l.drop 100) b hb1
termination_by l.length
decreasing_by
  simp only [List.length_drop]
  have : l.length ≠ 0 := fun hl => h (List.eq_nil_of_length_eq_zero hl)
  omega

/-- A 250-element uri list is cut into batches of sizes 100, 100 and 50. -/
lemma chunk100_sizes_250 (l : List String) (h : l.length = 250) :
    (chunk100 l).map List.length = [100, 100, 50] := by
  have h0 : l ≠ [] := by intro hl; rw [hl] at h; simp at h
  have h1 : (l.drop 100).length = 150 := by simp [h]
  have h10 : l.drop 100 ≠ [] := by intro hl; rw [hl] at h1; simp at h1
  have h2 : ((l.drop 100).drop 100).length = 50 := by simp [h]
  have h20 : (l.drop 100).drop 100 ≠ [] := by intro hl; rw [hl] at h2; simp at h2
  have h3 : ((l.drop 100).drop 100).drop 100 = [] := by
    apply List.eq_nil_of_length_eq_zero
    simp [h]
  rw [chunk100_eq, if_neg h0, chunk100_eq, if_neg h10, chunk100_eq, if_neg h20, h3,
    chunk100_eq, if_pos rfl]
  simp only [List.map_cons, List.map_nil, List.length_take]
  rw [h, h1, h2]
  decide

/-- When every add-tracks call succeeds the loop issues exactly the given
batches and reports no failure. -/
lemma runBatches_allOk (ok : Nat → Bool) (h : ∀ i, ok i = true) (i : Nat)
    (bs : List (List String)) : runBatches ok i bs = (bs, none) := by
  induction bs generalizing i with
  | nil => rfl
  | cons b tl ih => simp [runBatches, h i, ih]

/-- Claim C3: when the draft is found and playlist creation and every
add-tracks call succeed, `pushDraftToSpotify` issues exactly the sequential
`uris.slice(i, i+100)` batches: they concatenate to the draft's uri list in
order, each batch has at most 100 uris, and a 250-uri draft yields exactly
3 calls sized [100, 100, 50]. -/
theorem pushDraft_batches (env : PushEnv) (st : PushState) (userId draftId : String)
    (pre post : List Draft) (draft : Draft) (pid nm : String)
    (htok : st.user.spotify.accessToken ≠ "")
    (hfind : findFirstDraft draftId st.user.spotify.playlists = some (pre, draft, post))
    (hcreate : env.createResult = .ok (pid, nm))
    (hok : ∀ i, env.addTracksOk i = true) :
    (pushDraftToSpotify env st userId draftId).2.2 =
      chunk100 (draft.tracks.map (fun t => t.uri)) ∧
    (pushDraftToSpotify env st userId draftId).2.2.flatten =
      draft.tracks.map (fun t => t.uri) ∧
    (∀ b ∈ (pushDraftToSpotify env st userId draftId).2.2, b.length ≤ 100 ∧ b ≠ []) ∧
    ((draft.tracks.map (fun t => t.uri)).length = 250 →
      (pushDraftToSpotify env st userId draftId).2.2.map List.length = [100, 100, 50]) := by
  have key : (pushDraftToSpotify env st userId draftId).2.2 =
      chunk100 (draft.tracks.map (fun t => t.uri)) := by
    simp only [pushDraftToSpotify, if_neg htok, hfind, hcreate,
      runBatches_allOk env.addTracksOk hok]
    cases env.savePlaylistDocOk <;> cases env.saveUserOk <;> simp
  refine ⟨key, ?_, ?_, ?_⟩
  · rw [key]
    exact chunk100_join _
  · rw [key]
    intro b hb
    exact chunk100_mem _ b hb
  · rw [key]
    intro h
    exact chunk100_sizes_250 _ h

/-- A draft holding 250 tracks, for the publish-batching witness. -/
def draft250 : Draft :=
  { id := "d1", mood := "chill", genres := ["pop"], count := 250,
    tracks := List.replicate 250
      { id := "t", name := "n", artist := "a", uri := "u", image := none, preview := none },
    status := "draft", createdAt := 0 }

/-- State holding the 250-track draft for a Spotify-connected user. -/
def stPush250 : PushState :=
  { user := { name := "n", email := "e", accessToken := "j1", refreshToken := "j2",
              spotify := { accessToken := "SA", refreshToken := "SR",
                           playlists := [draft250] } },
    published := [] }

/-- Environment in which every publish step succeeds. -/
def envPushOk : PushEnv :=
  { createResult := .ok ("pl1", "chill playlist"), addTracksOk := fun _ => true,
    savePlaylistDocOk := true, saveUserOk := true }

/-- Claim C3 witness: pushing the 250-track draft issues exactly 3
add-tracks calls sized [100, 100, 50]. -/
theorem pushDraft_batches_witness :
    (pushDraftToSpotify envPushOk stPush250 "u1" "d1").2.2.map List.length =
      [100, 100, 50] := by
  have h := pushDraft_batches envPushOk stPush250 "u1" "d1" [] [] draft250
    "pl1" "chill playlist" (by decide) rfl rfl (fun i => rfl)
  exact h.2.2.2 (by simp only [draft250, List.map_replicate, List.length_replicate])

/-- Claim C8: for every environment and state, whenever `pushDraftToSpotify`
responds with an error — the user not connected, the draft not found, the
playlist-create call failing, an add-tracks batch failing, or either
persistence write failing — the user's draft list is unchanged; and
whenever the draft list did change, the run succeeded and the Published
Playlist record was appended to the history, so the draft is removed only
after the record is persisted. -/
theorem pushDraft_frame (env : PushEnv) (st : PushState) (userId draftId : String) :
    (∀ e, (pushDraftToSpotify env st userId draftId).2.1 = .error e →
      (pushDraftToSpotify env st userId draftId).1.user.spotify.playlists =
        st.user.spotify.playlists) ∧
    ((pushDraftToSpotify env st userId draftId).1.user.spotify.playlists ≠
        st.user.spotify.playlists →
      ∃ rc, (pushDraftToSpotify env st userId draftId).2.1 = .ok rc ∧
        (pushDraftToSpotify env st userId draftId).1.published =
          st.published ++ [rc]) ∧
    (∀ rc, (pushDraftToSpotify env st userId draftId).2.1 = .ok rc →
      (pushDraftToSpotify env st userId draftId).1.published = st.published ++ [rc] ∧
      rc ∈ (pushDraftToSpotify env st userId draftId).1.published) := by
  by_cases h1 : st.user.spotify.accessToken = ""
  · have key : pushDraftToSpotify env st userId draftId = (st, .error .notConnected, []) := by
      simp only [pushDraftToSpotify, if_pos h1]
    rw [key]
    exact ⟨fun e he => rfl, fun hne => absurd rfl hne, fun rc hrc => PushResult.noConfusion hrc⟩
  · cases hfd : findFirstDraft draftId st.user.spotify.playlists with
    | none =>
      have key : pushDraftToSpotify env st userId draftId = (st, .error .draftNotFound, []) := by
        simp only [pushDraftToSpotify, if_neg h1, hfd]
      rw [key]
      exact ⟨fun e he => rfl, fun hne => absurd rfl hne, fun rc hrc => PushResult.noConfusion hrc⟩
    | some x =>
      obtain ⟨pre, draft, post⟩ := x
      cases hcr : env.createResult with
      | error s =>
        have key : pushDraftToSpotify env st userId draftId =
            (st, .error (.createFailed s), []) := by
          simp only [pushDraftToSpotify, if_neg h1, hfd, hcr]
        rw [key]
        exact ⟨fun e he => rfl, fun hne => absurd rfl hne,
               fun rc hrc => PushResult.noConfusion hrc⟩
      | ok pr =>
        obtain ⟨pid, nm⟩ := pr
        rcases hrb : runBatches env.addTracksOk 0
            (chunk100 (draft.tracks.map (fun t => t.uri))) with ⟨issuedCalls, failIdx⟩
        cases failIdx with
        | some i =>
          have key : pushDraftToSpotify env st userId draftId =
              (st, .error (.addTracksFailed i), issuedCalls) := by
            simp only [pushDraftToSpotify, if_neg h1, hfd, hcr, hrb]
          rw [key]
          exact ⟨fun e he => rfl, fun hne => absurd rfl hne,
                 fun rc hrc => PushResult.noConfusion hrc⟩
        | none =>
          by_cases hdoc : env.savePlaylistDocOk = true
          · by_cases husr : env.saveUserOk = true
            · have key : pushDraftToSpotify env st userId draftId =
                  ({ user := { st.user with
                       spotify := { st.user.spotify with playlists := pre ++ post } },
                     published := st.published ++
                       [{ user := userId, spotifyPlaylistId := pid, name := nm,
                          mood := draft.mood, genres := draft.genres,
                          tracks := draft.tracks }] },
                   .ok { user := userId, spotifyPlaylistId := pid, name := nm,
                         mood := draft.mood, genres := draft.genres,
                         tracks := draft.tracks },
                   issuedCalls) := by
                simp only [pushDraftToSpotify, if_neg h1, hfd, hcr, hrb, if_pos hdoc,
                  if_pos husr]
              rw [key]
              refine ⟨fun e he => PushResult.noConfusion he, fun hne => ⟨_, rfl, rfl⟩, ?_⟩
              intro rc hrc
              injection hrc with hrc
              subst hrc
              exact ⟨rfl, by simp⟩
            · have key : pushDraftToSpotify env st userId draftId =
                  ({ st with published := st.published ++
                       [{ user := userId, spotifyPlaylistId := pid, name := nm,
                          mood := draft.mood, genres := draft.genres,
                          tracks := draft.tracks }] },
                   .error .saveUserFailed, issuedCalls) := by
                simp only [pushDraftToSpotify, if_neg h1, hfd, hcr, hrb, if_pos hdoc,
                  if_neg husr]
              rw [key]
              exact ⟨fun e he => rfl, fun hne => absurd rfl hne,
                     fun rc hrc => PushResult.noConfusion hrc⟩
          · have key : pushDraftToSpotify env st userId draftId =
                (st, .error .savePlaylistDocFailed, issuedCalls) := by
              simp only [pushDraftToSpotify, if_neg h1, hfd, hcr, hrb, if_neg hdoc]
            rw [key]
            exact ⟨fun e he => rfl, fun hne => absurd rfl hne,
                   fun rc hrc => PushResult.noConfusion hrc⟩

/-- Environment in which the final Published-Playlist persistence fails. -/
def envPushDocFail : PushEnv :=
  { createResult := .ok ("pl1", "chill playlist"), addTracksOk := fun _ => true,
    savePlaylistDocOk := false, saveUserOk := true }

/-- A two-track draft for the publish frame witness. -/
def draftSmall : Draft :=
  { id := "d2", mood := "chill", genres := ["pop"], count := 2,
    tracks := [{ id := "t1", name := "n1", artist := "a1", uri := "u1",
                 image := none, preview := none },
               { id := "t2", name := "n2", artist := "a2", uri := "u2",
                 image := none, preview := none }],
    status := "draft", createdAt := 0 }

/-- State holding the two-track draft for a Spotify-connected user. -/
def stPushSmall : PushState :=
  { user := { name := "n", email := "e", accessToken := "j1", refreshToken := "j2",
              spotify := { accessToken := "SA", refreshToken := "SR",
                           playlists := [draftSmall] } },
    published := [] }

/-- Claim C8 witness: when persisting the Published Playlist record fails,
the concrete run leaves the user's draft list unmodified. -/
theorem pushDraft_frame_witness :
    (pushDraftToSpotify envPushDocFail stPushSmall "u1" "d2").1.user.spotify.playlists =
      stPushSmall.user.spotify.playlists :=
  (pushDraft_frame envPushDocFail stPushSmall "u1" "d2").1
    PushError.savePlaylistDocFailed (by rfl)

/-- The dedupe loop output is a sublist of its input: kept tracks appear in
their original relative order. -/
lemma dedupeGo_sublist (seen : List String) (l : List CTrack) :
    List.Sublist (dedupeGo seen l) l := by
  induction l generalizing seen with
  | nil => simp [dedupeGo]
  | cons t ts ih =>
    rw [dedupeGo]
    by_cases h : t.id ≠ "" ∧ t.id ∉ seen
    · rw [if_pos h]
      exact List.Sublist.cons₂ t (ih (t.id :: seen))
    · rw [if_neg h]
      exact List.Sublist.cons t (ih seen)

/-- Ids already in the map never reappear in the dedupe output. -/
lemma dedupeGo_count_seen (seen : List String) (l : List CTrack) (s : String)
    (hs : s ∈ seen) :
    ((dedupeGo seen l).map (fun t => t.id)).count s = 0 := by
  induction l generalizing seen with
  | nil => simp [dedupeGo]
  | cons t ts ih =>
    rw [dedupeGo]
    by_cases h : t.id ≠ "" ∧ t.id ∉ seen
    · rw [if_pos h]
      have hts : t.id ≠ s := fun he => h.2 (he ▸ hs)
      simp only [List.map_cons, List.count_cons]
      rw [ih (t.id :: seen) (List.mem_cons_of_mem _ hs)]
      simp [hts]
    · rw [if_neg h]
      exact ih seen hs

/-- Each id not yet in the map appears in the dedupe output exactly once if
it occurs in the remaining input, not at all otherwise. -/
lemma dedupeGo_count (seen : List String) (l : List CTrack) (s : String)
    (h : ∀ t ∈ l, t.id ≠ "") (hs : s ∉ seen) :
    ((dedupeGo seen l).map (fun t => t.id)).count s =
      if s ∈ l.map (fun t => t.id) then 1 else 0 := by
  induction l generalizing seen with
  | nil => simp [dedupeGo]
  | cons t ts ih =>
    have hid : t.id ≠ "" := h t (List.mem_cons_self t ts)
    have hts : ∀ u ∈ ts, u.id ≠ "" := fun u hu => h u (List.mem_cons_of_mem t hu)
    rw [dedupeGo]
    by_cases hseen : t.id ∈ seen
    · rw [if_neg (fun hc => hc.2 hseen)]
      have hst : s ≠ t.id := fun he => hs (he ▸ hseen)
      rw [ih seen hts hs]
      simp [List.mem_cons, hst]
    · rw [if_pos ⟨hid, hseen⟩]
      simp only [List.map_cons, List.count_cons]
      by_cases hst : s = t.id
      · subst hst
        rw [dedupeGo_count_seen (t.id :: seen) ts t.id (List.mem_cons_self t.id seen)]
        simp [hs]
      · rw [ih (t.id :: seen) hts (by simp [hst, hs])]
        simp [List.mem_cons, hst, Ne.symm hst]

/-- The representative that dedupe keeps for an id is the first track of the
input carrying that id. -/
lemma dedupeGo_find (seen : List String) (l : List CTrack) (s : String)
    (h : ∀ t ∈ l, t.id ≠ "") (hs : s ∉ seen) :
    (dedupeGo seen l).find? (fun t => t.id = s) = l.find? (fun t => t.id = s) := by
  induction l generalizing seen with
  | nil => simp [dedupeGo]
  | cons t ts ih =>
    have hid : t.id ≠ "" := h t (List.mem_cons_self t ts)
    have hts : ∀ u ∈ ts, u.id ≠ "" := fun u hu => h u (List.mem_cons_of_mem t hu)
    rw [dedupeGo]
    by_cases hseen : t.id ∈ seen
    · rw [if_neg (fun hc => hc.2 hseen)]
      have hst : t.id ≠ s := fun he => hs (he ▸ hseen)
      rw [List.find?_cons_of_neg _ (by simp [hst])]
      exact ih seen hts hs
    · rw [if_pos ⟨hid, hseen⟩]
      by_cases hst : t.id = s
      · rw [List.find?_cons_of_pos _ (by simp [hst]),
          List.find?_cons_of_pos _ (by simp [hst])]
      · rw [List.find?_cons_of_neg _ (by simp [hst]),
          List.find?_cons_of_neg _ (by simp [hst])]
        exact ih (t.id :: seen) hts
          (by simp only [List.mem_cons, not_or]; exact ⟨fun he => hst he.symm, hs⟩)

/-- Claim C4: for every candidate list whose tracks all carry a (truthy)
id, the deduplicated pool is a sublist of the input (first-seen order
preserved), contains each input id exactly once and no other id, and keeps
for each id exactly the first track of the input with that id. -/
theorem dedupeById_spec (l : List CTrack) (h : ∀ t ∈ l, t.id ≠ "") :
    List.Sublist (dedupeById l) l ∧
    (∀ s, ((dedupeById l).map (fun t => t.id)).count s =
      if s ∈ l.map (fun t => t.id) then 1 else 0) ∧
    (∀ s, (dedupeById l).find? (fun t => t.id = s) = l.find? (fun t => t.id = s)) := by
  refine ⟨dedupeGo_sublist [] l, ?_, ?_⟩
  · intro s
    exact dedupeGo_count [] l s h (List.not_mem_nil s)
  · intro s
    exact dedupeGo_find [] l s h (List.not_mem_nil s)

/-- Three candidate tracks, the first and third sharing id "t1" but with
different payloads. -/
def ctA : CTrack :=
  { id := "t1", name := "first", artists := ["A"], uri := "u1",
    albumImages := [], preview_url := none }

/-- A second candidate track with a distinct id. -/
def ctB : CTrack :=
  { id := "t2", name := "second", artists := ["B"], uri := "u2",
    albumImages := [], preview_url := none }

/-- A duplicate of `ctA`'s id with a different payload. -/
def ctA2 : CTrack :=
  { id := "t1", name := "third", artists := ["C"], uri := "u3",
    albumImages := [], preview_url := none }

/-- Claim C4 witness: on the list [ctA, ctB, ctA2] the duplicated id "t1"
survives exactly once and its kept representative is the first occurrence
`ctA`. -/
theorem dedupeById_spec_witness :
    ((dedupeById [ctA, ctB, ctA2]).map (fun t => t.id)).count "t1" = 1 ∧
    (dedupeById [ctA, ctB, ctA2]).find? (fun t => t.id = "t1") = some ctA := by
  have h := dedupeById_spec [ctA, ctB, ctA2] (by decide)
  constructor
  · exact (h.2.1 "t1").trans (by decide)
  · exact (h.2.2 "t1").trans (by decide)

/-- Claim C9: when the shuffled list is a permutation of the selection pool
(the effect of `pool.sort(() => Math.random() - 0.5)`) and the pool holds at
least `count` tracks, the assembled draft has exactly `count` tracks, each
the public projection of a pool track, carries `status = "draft"`, and for
an unauthenticated caller (no user id) the user store is left untouched;
the requested count defaults to 20. -/
theorem assembleAndPersist_spec (db : UserDb) (userId : Option String) (mood : String)
    (seedGs : List String) (count : Nat) (pool shuffled : List CTrack) (now : Nat)
    (hperm : shuffled.Perm pool) (hcount : count ≤ pool.length) :
    (assembleAndPersist db userId mood seedGs count shuffled now).1.tracks.length = count ∧
    (assembleAndPersist db userId mood seedGs count shuffled now).1.status = "draft" ∧
    (assembleAndPersist db userId mood seedGs count shuffled now).1.count = count ∧
    (∀ tr ∈ (assembleAndPersist db userId mood seedGs count shuffled now).1.tracks,
      ∃ t ∈ pool, projectTrack t = tr) ∧
    (assembleAndPersist db none mood seedGs count shuffled now).2 = db ∧
    requestedCount none = 20 := by
  have hlen : shuffled.length = pool.length := hperm.length_eq
  have h1 : ((shuffled.take count).map projectTrack).length = count := by
    simp only [List.length_map, List.length_take]
    omega
  have h4 : ∀ tr ∈ (shuffled.take count).map projectTrack, ∃ t ∈ pool, projectTrack t = tr := by
    intro tr htr
    obtain ⟨t, ht, hpr⟩ := List.mem_map.mp htr
    exact ⟨t, hperm.mem_iff.mp (List.take_subset count shuffled ht), hpr⟩
  cases userId with
  | none => exact ⟨h1, rfl, rfl, h4, rfl, rfl⟩
  | some uid => exact ⟨h1, rfl, rfl, h4, rfl, rfl⟩

/-- Claim C9 witness: with the two-track pool [ctA, ctB], the genuinely
shuffled order [ctB, ctA] and count 1, the unauthenticated draft has
exactly one track, status "draft", and the user store is unchanged. -/
theorem assembleAndPersist_spec_witness :
    (assembleAndPersist [("u1", userEx)] none "chill" ["pop"] 1 [ctB, ctA] 0).1.tracks.length
      = 1 ∧
    (assembleAndPersist [("u1", userEx)] none "chill" ["pop"] 1 [ctB, ctA] 0).1.status
      = "draft" ∧
    (assembleAndPersist [("u1", userEx)] none "chill" ["pop"] 1 [ctB, ctA] 0).2
      = [("u1", userEx)] := by
  have h := assembleAndPersist_spec [("u1", userEx)] none "chill" ["pop"] 1
    [ctA, ctB] [ctB, ctA] 0 (by decide) (by decide)
  exact ⟨h.1, h.2.1, h.2.2.2.2.1⟩

/-- Characterization of `findFirstDraft`: a successful split identifies the
first draft with the given id, the drafts before it (none of which match)
and the drafts after it. -/
lemma findFirstDraft_some (did : String) (l : List Draft) :
    ∀ pre d post, findFirstDraft did l = some (pre, d, post) →
      l = pre ++ d :: post ∧ d.id = did ∧ ∀ p ∈ pre, p.id ≠ did := by
  induction l with
  | nil =>
    intro pre d post h
    simp [findFirstDraft] at h
  | cons a as ih =>
    intro pre d post h
    rw [findFirstDraft] at h
    by_cases ha : a.id = did
    · rw [if_pos ha] at h
      injection h with h
      injection h with h4 h5
      injection h5 with h5 h6
      subst h4
      subst h5
      subst h6
      exact ⟨rfl, ha, fun p hp => absurd hp (List.not_mem_nil p)⟩
    · rw [if_neg ha] at h
      cases hrec : findFirstDraft did as with
      | none =>
        rw [hrec] at h
        simp at h
      | some x =>
        obtain ⟨pre1, d1, post1⟩ := x
        rw [hrec] at h
        simp only [Option.map_some'] at h
        injection h with h
        injection h with h4 h5
        injection h5 with h5 h6
        subst h4
        subst h5
        subst h6
        obtain ⟨hl, hd, hpre⟩ := ih pre1 d1 post1 hrec
        refine ⟨by rw [hl]; rfl, hd, ?_⟩
        intro p hp
        rcases List.mem_cons.mp hp with hp1 | hp1
        · rw [hp1]
          exact ha
        · exact hpre p hp1

/-- Claim C10: with the caller resolved to user `u`, if no draft with the
given id exists the call answers not-found and leaves the store unchanged;
if the draft list splits as `pre ++ d :: post` around the first draft `d`
with the given id, the call answers 200 with `d` updated to its track list
with every track whose id equals `trackId` removed (an order-preserving
sublist containing exactly the non-matching tracks), and the store update
rewrites only user `u`, keeping `pre`, `post`, the draft's other fields and
the user's other fields intact. -/
theorem deleteTrackFromDraft_spec (db : UserDb) (uid : String) (u : UserRec)
    (draftId trackId : String)
    (hu : (db.find? (fun p => p.1 = uid)).map (fun p => p.2) = some u) :
    (findFirstDraft draftId u.spotify.playlists = none →
      deleteTrackFromDraft db (some uid) draftId trackId = (.notFound, db)) ∧
    (∀ pre d post, findFirstDraft draftId u.spotify.playlists = some (pre, d, post) →
      u.spotify.playlists = pre ++ d :: post ∧
      d.id = draftId ∧
      (∀ p ∈ pre, p.id ≠ draftId) ∧
      (deleteTrackFromDraft db (some uid) draftId trackId).1 =
        .ok { d with tracks := d.tracks.filter (fun t => t.id ≠ trackId) } ∧
      (deleteTrackFromDraft db (some uid) draftId trackId).2 =
        db.map (fun p => if p.1 = uid then
          (p.1, { u with spotify := { u.spotify with playlists :=
            pre ++ { d with tracks := d.tracks.filter (fun t => t.id ≠ trackId) } :: post } })
          else p) ∧
      List.Sublist (d.tracks.filter (fun t => t.id ≠ trackId)) d.tracks ∧
      (∀ t ∈ d.tracks.filter (fun t => t.id ≠ trackId), t.id ≠ trackId) ∧
      (∀ t ∈ d.tracks, t.id ≠ trackId →
        t ∈ d.tracks.filter (fun t => t.id ≠ trackId))) := by
  constructor
  · intro hnone
    simp only [deleteTrackFromDraft, hu, hnone]
  · intro pre d post hsome
    obtain ⟨hl, hd, hpre⟩ := findFirstDraft_some draftId u.spotify.playlists pre d post hsome
    have key : deleteTrackFromDraft db (some uid) draftId trackId =
        (.ok { d with tracks := d.tracks.filter (fun t => t.id ≠ trackId) },
         db.map (fun p => if p.1 = uid then
           (p.1, { u with spotify := { u.spotify with playlists :=
             pre ++ { d with tracks := d.tracks.filter (fun t => t.id ≠ trackId) } :: post } })
           else p)) := by
      simp only [deleteTrackFromDraft, hu, hsome]
    refine ⟨hl, hd, hpre, by rw [key], by rw [key], List.filter_sublist _, ?_, ?_⟩
    · intro t ht
      have hmem := List.of_mem_filter ht
      simpa using hmem
    · intro t ht hne
      exact List.mem_filter.mpr ⟨ht, by simpa using hne⟩

/-- A draft track with id "x". -/
def dtX1 : DraftTrack :=
  { id := "x", name := "nx1", artist := "ax1", uri := "ux1", image := none, preview := none }

/-- A draft track with id "y". -/
def dtY : DraftTrack :=
  { id := "y", name := "ny", artist := "ay", uri := "uy", image := none, preview := none }

/-- A second draft track with id "x" and a different payload. -/
def dtX2 : DraftTrack :=
  { id := "x", name := "nx2", artist := "ax2", uri := "ux2", image := none, preview := none }

/-- The draft targeted by the track-deletion witness: two of its three
tracks carry id "x". -/
def draftDel : Draft :=
  { id := "dd1", mood := "m", genres := [], count := 3, tracks := [dtX1, dtY, dtX2],
    status := "draft", createdAt := 0 }

/-- A second draft of the same user that must stay untouched. -/
def draftOther : Draft :=
  { id := "dd2", mood := "m2", genres := [], count := 1, tracks := [dtY],
    status := "draft", createdAt := 1 }

/-- The user owning both drafts. -/
def userDel : UserRec :=
  { name := "n", email := "e", accessToken := "a", refreshToken := "r",
    spotify := { accessToken := "SA", refreshToken := "SR",
                 playlists := [draftDel, draftOther] } }

/-- The user store of the track-deletion witness. -/
def dbDel : UserDb := [("u1", userDel)]

/-- Claim C10 witness: deleting track id "x" from draft "dd1" removes both
"x" tracks, keeps "y", and leaves the sibling draft "dd2" and the rest of
the user record unchanged. -/
theorem deleteTrackFromDraft_spec_witness :
    (deleteTrackFromDraft dbDel (some "u1") "dd1" "x").1 =
      .ok { draftDel with tracks := [dtY] } ∧
    (deleteTrackFromDraft dbDel (some "u1") "dd1" "x").2 =
      [("u1", { userDel with spotify := { userDel.spotify with
        playlists := [{ draftDel with tracks := [dtY] }, draftOther] } })] := by
  have h := (deleteTrackFromDraft_spec dbDel "u1" userDel "dd1" "x" rfl).2
    [] draftDel [draftOther] rfl
  exact ⟨h.2.2.2.1.trans (by decide), h.2.2.2.2.1.trans (by decide)⟩

end Sonix
